import Mathlib

/-
Verification development for the PhreeqcIO chemistry coupling
(ChemistryLib/PhreeqcIO.cpp of OpenGeoSys).

The C++ source is shallowly embedded in Lean 4:
  * entity types (aqueous solutions, equilibrium phases, kinetic reactants,
    surface sites, user punch, output schema, dump) become structures,
    parameterized over the numeric value type α (instantiated at ℚ for the
    executable text-protocol layer, at ℝ for the pH/log10 arithmetic);
  * the result deserializer `operator>>(std::istream&, PhreeqcIO&)`
    (lines 406-562) becomes `readOutputs` over a list of text lines,
    with `std::stod` modelled by `stod`, boost trim/split by `tokenize`,
    and OGS_FATAL aborts by `Except` errors carrying the same context;
  * the per-system part of the input-script serializer
    `operator<<(std::ostream&, PhreeqcIO const&)` (lines 296-357) becomes
    `writeSystem`, producing a structured stream of `ScriptItem`s, one per
    `os <<` statement; the null-pointer dereference of `_dump` in the
    SURFACE branch (line 345) is modelled as the `none` result;
  * the orchestrator phase
    `PhreeqcIO::setAqueousSolutionsOrUpdateProcessSolutions`
    (lines 142-219) becomes `processEntry` over ℝ, modelliing the body of
    the loop over `_process_id_to_component_name_map` for one chemical
    system, with an explicit trace of the `set` calls it performs.
-/

set_option maxHeartbeats 1000000

namespace PhreeqcIOData

/-- A named chemical species with a concentration amount
(PhreeqcIOData/AqueousSolution.h `Component`). -/
structure Component (α : Type) where
  name : String
  amount : α
deriving DecidableEq, Repr

/-- One aqueous solution: pH, pe and the ordered component list
(PhreeqcIOData/AqueousSolution.h `AqueousSolution`). -/
structure AqueousSolution (α : Type) where
  pH : α
  pe : α
  components : List (Component α)
deriving DecidableEq, Repr

/-- An equilibrium phase; `amount` is array-valued over all systems,
indexed by `global_id` (PhreeqcIOData/EquilibriumPhase.h). -/
structure EquilibriumPhase (α : Type) where
  name : String
  amount : List α
deriving DecidableEq, Repr

/-- A kinetic reactant; `amount` is array-valued over all systems,
indexed by `global_id` (PhreeqcIOData/KineticReactant.h). -/
structure KineticReactant (α : Type) where
  name : String
  amount : List α
deriving DecidableEq, Repr

/-- A surface-complexation site (PhreeqcIOData/Surface.h). -/
structure SurfaceSite where
  name : String
deriving DecidableEq, Repr

/-- A user-punch secondary variable; `value` is array-valued over all
systems, indexed by `global_id` (PhreeqcIOData/UserPunch.h). -/
structure SecondaryVariable (α : Type) where
  name : String
  value : List α
deriving DecidableEq, Repr

/-- The optional USER_PUNCH block data (PhreeqcIOData/UserPunch.h). -/
structure UserPunch (α : Type) where
  secondary_variables : List (SecondaryVariable α)
deriving DecidableEq, Repr

/-- The kind of entity a result-table column maps to
(PhreeqcIOData/Output.h `ItemType`). -/
inductive ItemType where
  | pH
  | pe
  | Component
  | EquilibriumPhase
  | KineticReactant
  | SecondaryVariable
deriving DecidableEq, Repr

/-- One expected result-table column: name plus entity kind
(PhreeqcIOData/Output.h `OutputItem`). -/
structure OutputItem where
  name : String
  item_type : ItemType
deriving DecidableEq, Repr

/-- The output schema: the ordered accepted columns and the raw column
indices to be dropped before positional matching
(PhreeqcIOData/Output.h `Output`). -/
structure Output where
  accepted_items : List OutputItem
  dropped_item_ids : List Nat
deriving DecidableEq, Repr

/-- The previous-state (dump) object; `aqueous_solutions_prev` is what the
serializer consults at PhreeqcIO.cpp lines 307-311 and 345-348
(PhreeqcIOData/Dump.h). -/
structure Dump (α : Type) where
  aqueous_solutions_prev : List (AqueousSolution α)
deriving DecidableEq, Repr

/-- The mutable per-coupling chemistry state held by the C++ `PhreeqcIO`
object: per-system solutions plus the array-valued entity collections and
the output schema and optional dump. -/
structure PhreeqcState (α : Type) where
  aqueous_solutions : List (AqueousSolution α)
  equilibrium_phases : List (EquilibriumPhase α)
  kinetic_reactants : List (KineticReactant α)
  surface : List SurfaceSite
  user_punch : Option (UserPunch α)
  output : Output
  dump : Option (Dump α)
deriving DecidableEq, Repr

/-! ## Tokenization of a result-table data row

PhreeqcIO.cpp lines 446-448: `boost::trim_if(line, is_any_of("\t "))`
followed by `boost::algorithm::split(items, line, is_any_of("\t "),
token_compress_on)`.  On a trimmed non-empty line this yields the maximal
non-separator runs; on an all-separator or empty line boost::split yields
the single empty token. -/

/-- Separator predicate of the split at line 447: tab or space. -/
def isSepChar (c : Char) : Bool := c = '\t' || c = ' '

/-- Collect maximal non-separator runs (split with `token_compress_on`). -/
def splitCompress : List Char → List Char → List String
  | [], acc => if acc.isEmpty then [] else [String.mk acc.reverse]
  | c :: rest, acc =>
    if isSepChar c then
      if acc.isEmpty then splitCompress rest []
      else String.mk acc.reverse :: splitCompress rest []
    else splitCompress rest (c :: acc)

/-- Lines 446-448: trim tabs/spaces, then split on tab/space runs.  A line
holding only separators trims to the empty string, which boost::split
turns into the single empty token. -/
def tokenize (line : String) : List String :=
  if line.toList.all isSepChar then [""]
  else splitCompress line.toList []

/-! ## std::stod (line 458)

Decimal model of `std::stod`: optional sign, digits with optional
fractional part, optional exponent; the conversion uses the longest valid
prefix and fails (std::invalid_argument) when no digit of the mantissa
could be read.  Hexadecimal, infinity and NaN forms of strtod are not
modelled; the result file's numeric columns do not use them. -/

/-- Decimal digits folded to a natural number. -/
def digitsToNat (ds : List Char) : Nat :=
  ds.foldl (fun a c => 10 * a + (c.toNat - 48)) 0

/-- Unsigned digit run folded to an integer exponent contribution; empty
run contributes nothing (strtod backs off over an incomplete exponent). -/
def stodExponentDigits (ds : List Char) : Int :=
  if (ds.takeWhile Char.isDigit).isEmpty then 0
  else (digitsToNat (ds.takeWhile Char.isDigit) : Int)

/-- Signed digit run after the `e`/`E` of an exponent. -/
def stodExponentAfterE (cs : List Char) : Int :=
  match cs with
  | [] => 0
  | c :: rest =>
    if c = '-' then -stodExponentDigits rest
    else if c = '+' then stodExponentDigits rest
    else stodExponentDigits (c :: rest)

/-- Exponent part of `std::stod`: `e`/`E`, optional sign, digits. -/
def stodExponent (cs : List Char) : Int :=
  match cs with
  | [] => 0
  | c :: rest => if c = 'e' ∨ c = 'E' then stodExponentAfterE rest else 0

/-- Optional leading sign of the mantissa. -/
def stodSignSplit (cs : List Char) : ℚ × List Char :=
  match cs with
  | [] => (1, [])
  | c :: rest =>
    if c = '-' then (-1, rest)
    else if c = '+' then (1, rest)
    else (1, c :: rest)

/-- Fractional digit run after the decimal point, plus the remainder. -/
def stodFracSplit (cs : List Char) : List Char × List Char :=
  match cs with
  | [] => ([], [])
  | c :: rest =>
    if c = '.' then (rest.takeWhile Char.isDigit, rest.dropWhile Char.isDigit)
    else ([], c :: rest)

/-- Model of `std::stod` over exact rationals. -/
def stod (s : String) : Option ℚ :=
  let sgncs := stodSignSplit s.toList
  let ip := sgncs.2.takeWhile Char.isDigit
  let afterInt := sgncs.2.dropWhile Char.isDigit
  let fpRest := stodFracSplit afterInt
  if ip.isEmpty && fpRest.1.isEmpty then none
  else
    let mantissa : ℚ :=
      sgncs.1 * ((digitsToNat ip : ℚ) +
        (digitsToNat fpRest.1 : ℚ) / ((10 : ℚ) ^ fpRest.1.length))
    some (mantissa * (10 : ℚ) ^ stodExponent fpRest.2)

/-! ## Parsing the accepted items of one data row (lines 449-478) -/

/-- Context of the OGS_FATAL at lines 462-475: the offending token, the
chemical system's (global) id, and the raw column index. -/
structure ParseError where
  token : String
  systemId : Nat
  columnIndex : Nat
deriving DecidableEq, Repr

/-- Lines 449-478: walk the tokens with their raw column index; a column
listed in `dropped_item_ids` is discarded, any other token is converted
with `std::stod`; a conversion failure is fatal and carries the token,
the system id and the column index. -/
def parseItemsGo (dropped : List Nat) (g : Nat) :
    List String → Nat → Except ParseError (List ℚ)
  | [], _ => .ok []
  | s :: rest, item_id =>
    if item_id ∈ dropped then parseItemsGo dropped g rest (item_id + 1)
    else
      match stod s with
      | none => .error ⟨s, g, item_id⟩
      | some value =>
        match parseItemsGo dropped g rest (item_id + 1) with
        | .error e => .error e
        | .ok vs => .ok (value :: vs)

/-! ## Routing accepted values into the entity model (lines 487-558)

Note: the arity check `assert(accepted_items.size() ==
output.accepted_items.size())` at line 479 is a debug-only `assert`,
compiled out under NDEBUG; it is therefore absent from this model of the
release semantics.  The routing loop runs over the parsed values and
looks the schema entry up positionally; reading the schema past its end
(possible when the row has more accepted tokens than schema entries) is
an out-of-bounds access in C++, modelled as the `schemaOverrun` error. -/

/-- Failures of the routing loop: a schema read past its end (C++
out-of-bounds, undefined), a `BaseLib::findElementOrError` miss carrying
the looked-up name, the unguarded `user_punch` dereference (line 545-546),
and an out-of-range `_aqueous_solutions[local_id]` access. -/
inductive RouteError where
  | schemaOverrun (item_id : Nat)
  | componentNotFound (name : String)
  | phaseNotFound (name : String)
  | reactantNotFound (name : String)
  | secondaryNotFound (name : String)
  | missingUserPunch
  | badLocalId (local_id : Nat)
deriving DecidableEq, Repr

/-- `BaseLib::findElementOrError` as an updater: rewrite the first element
satisfying `p`, or fail when there is none. -/
def updateFirst (p : β → Bool) (f : β → β) : List β → Option (List β)
  | [] => none
  | x :: xs =>
    if p x then some (f x :: xs)
    else (updateFirst p f xs).map (x :: ·)

/-- One iteration of the routing loop (lines 487-558) for the value
`v` at position `item_id` of the accepted items, for the system at
`local_id` with mapped `global_id` `g`. -/
def routeOne (st : PhreeqcState ℚ) (g lid item_id : Nat) (v : ℚ) :
    Except RouteError (PhreeqcState ℚ) :=
  match st.output.accepted_items[item_id]? with
  | none => .error (.schemaOverrun item_id)
  | some accepted_item =>
    match accepted_item.item_type with
    | .pH =>
      match st.aqueous_solutions[lid]? with
      | none => .error (.badLocalId lid)
      | some sol =>
        .ok { st with aqueous_solutions :=
                st.aqueous_solutions.set lid { sol with pH := v } }
    | .pe =>
      match st.aqueous_solutions[lid]? with
      | none => .error (.badLocalId lid)
      | some sol =>
        .ok { st with aqueous_solutions :=
                st.aqueous_solutions.set lid { sol with pe := v } }
    | .Component =>
      match st.aqueous_solutions[lid]? with
      | none => .error (.badLocalId lid)
      | some sol =>
        match updateFirst (fun c => c.name == accepted_item.name)
            (fun c => { c with amount := v }) sol.components with
        | none => .error (.componentNotFound accepted_item.name)
        | some comps =>
          .ok { st with aqueous_solutions :=
                  st.aqueous_solutions.set lid { sol with components := comps } }
    | .EquilibriumPhase =>
      match updateFirst (fun e => e.name == accepted_item.name)
          (fun e => { e with amount := e.amount.set g v })
          st.equilibrium_phases with
      | none => .error (.phaseNotFound accepted_item.name)
      | some l => .ok { st with equilibrium_phases := l }
    | .KineticReactant =>
      match updateFirst (fun r => r.name == accepted_item.name)
          (fun r => { r with amount := r.amount.set g v })
          st.kinetic_reactants with
      | none => .error (.reactantNotFound accepted_item.name)
      | some l => .ok { st with kinetic_reactants := l }
    | .SecondaryVariable =>
      match st.user_punch with
      | none => .error .missingUserPunch
      | some up =>
        match updateFirst (fun sv => sv.name == accepted_item.name)
            (fun sv => { sv with value := sv.value.set g v })
            up.secondary_variables with
        | none => .error (.secondaryNotFound accepted_item.name)
        | some l =>
          .ok { st with user_punch := some { up with secondary_variables := l } }

/-- The routing loop over all accepted values (lines 487-558). -/
def routeItems (g lid : Nat) :
    List ℚ → Nat → PhreeqcState ℚ → Except RouteError (PhreeqcState ℚ)
  | [], _, st => .ok st
  | v :: vs, item_id, st =>
    match routeOne st g lid item_id v with
    | .error e => .error e
    | .ok st' => routeItems g lid vs (item_id + 1) st'

/-- Union of the fatal outcomes of `operator>>`: a numeric conversion
failure, a routing failure, and a failed `getline` for a system's data
row (OGS_FATAL at lines 438-442, naming the global id). -/
inductive ReadError where
  | parse (e : ParseError)
  | route (e : RouteError)
  | readFail (globalId : Nat)
deriving DecidableEq, Repr

/-- Processing of one already-tokenized data row for the system at
`local_id` with mapped global id `g`: lines 449-558. -/
def processItems (g lid : Nat) (items : List String) (st : PhreeqcState ℚ) :
    Except ReadError (PhreeqcState ℚ) :=
  match parseItemsGo st.output.dropped_item_ids g items 0 with
  | .error e => .error (.parse e)
  | .ok accepted =>
    match routeItems g lid accepted 0 st with
    | .error e => .error (.route e)
    | .ok st' => .ok st'

/-- Consumption of one data row (lines 444-558): tokenize, drop, convert,
route. -/
def readSystem (g lid : Nat) (line : String) (st : PhreeqcState ℚ) :
    Except ReadError (PhreeqcState ℚ) :=
  processItems g lid (tokenize line) st

/-- Line 416: one line is skipped per system before its data row, two when
surface chemistry is active. -/
def numSkippedLines (st : PhreeqcState ℚ) : Nat :=
  if st.surface.isEmpty then 1 else 2

/-- The per-system loop of `operator>>` (lines 426-559) over the remaining
`n` systems, starting at `local_id` `lid`, on the remaining text lines:
skip `s` lines, `getline` the data row (failing fatally with the global id
when the stream is exhausted), process it, recurse. -/
def readOutputsLoop (map : Nat → Nat) (s : Nat) :
    Nat → Nat → List String → PhreeqcState ℚ → Except ReadError (PhreeqcState ℚ)
  | 0, _, _, st => .ok st
  | n + 1, lid, lines, st =>
    match (lines.drop s).head? with
    | none => .error (.readFail (map lid))
    | some line =>
      match readSystem (map lid) lid line st with
      | .error e => .error e
      | .ok st' => readOutputsLoop map s n (lid + 1) (lines.drop (s + 1)) st'

/-- `operator>>(std::istream&, PhreeqcIO&)` (lines 406-562): skip the
headline, then run the per-system loop over all `N` systems with the
`local_id → global_id` map `map`. -/
def readOutputs (map : Nat → Nat) (N : Nat) (lines : List String)
    (st : PhreeqcState ℚ) : Except ReadError (PhreeqcState ℚ) :=
  readOutputsLoop map (numSkippedLines st) N 0 (lines.drop 1) st

/-! ## The per-system part of the input-script serializer
(`operator<<(std::ostream&, PhreeqcIO const&)`, lines 296-357)

Each `os <<` statement of the loop body becomes one structured
`ScriptItem`; the numeric keys of the block header lines are carried
explicitly so that the numbering rule can be stated. -/

/-- One emitted piece of the per-system input-script text, mirroring the
`os <<` statements of lines 301-356. -/
inductive ScriptItem where
  | solution (key : Nat)
  | solutionBody
  | prevSolutionBody (local_id : Nat)
  | useSolutionNone
  | endBlock
  | useSolution (key : Nat)
  | equilibriumPhases (key : Nat)
  | phaseBody (name : String)
  | kinetics (key : Nat)
  | kineticBody (name : String)
  | steps
  | surfaceBlock (key : Nat)
  | equilibrate (idx : Nat)
  | sitesUnits
  | surfaceSiteBody (name : String)
  | saveSolution (key : Nat)
deriving DecidableEq, Repr

/-- Lines 304-312: inside the SOLUTION block, if the dump is configured
and holds previous-state solutions, the previous composition of this
system is appended. -/
def prevBlockItems (dump : Option (Dump α)) (lid : Nat) : List ScriptItem :=
  match dump with
  | some d =>
    if d.aqueous_solutions_prev.isEmpty then [] else [.prevSolutionBody lid]
  | none => []

/-- Lines 319-328: the optional `EQUILIBRIUM_PHASES <global_id+1>`
block. -/
def phasesItems (ps : List (EquilibriumPhase α)) (g : Nat) : List ScriptItem :=
  if ps.isEmpty then []
  else .equilibriumPhases (g + 1) :: ps.map (fun p => .phaseBody p.name)

/-- Lines 330-339: the optional `KINETICS <global_id+1>` block with its
`-steps` directive. -/
def kineticsItems (ks : List (KineticReactant α)) (g : Nat) : List ScriptItem :=
  if ks.isEmpty then []
  else .kinetics (g + 1) :: (ks.map fun r => .kineticBody r.name) ++ [.steps]

/-- Lines 341-354: the optional `SURFACE <global_id+1>` block.  The C++
reads `dump->aqueous_solutions_prev` through the raw `_dump` pointer with
no null check; with no dump configured that dereference is undefined
behaviour, modelled as `none`.  Otherwise the `-equilibrate with solution`
index is `global_id + 1`, offset by `num_chemical_systems` when the
previous-state block set is non-empty. -/
def surfaceItems (surface : List SurfaceSite) (dump : Option (Dump α))
    (num_chemical_systems g : Nat) : Option (List ScriptItem) :=
  if surface.isEmpty then some []
  else
    match dump with
    | none => none
    | some d =>
      let aqueous_solution_id :=
        if d.aqueous_solutions_prev.isEmpty then g + 1
        else num_chemical_systems + g + 1
      some (.surfaceBlock (g + 1) :: .equilibrate aqueous_solution_id ::
        .sitesUnits :: (surface.map fun s => .surfaceSiteBody s.name) ++
        [.saveSolution (g + 1)])

/-- The loop body of the serializer for the system at `local_id`
(lines 296-357): `global_id` is looked up in the `bulk_node_ids` map and
every block key of the emitted text is `global_id + 1`.  The result is
`none` exactly when the SURFACE branch dereferences an unconfigured
dump. -/
def writeSystem (num_chemical_systems : Nat) (map : Nat → Nat)
    (p : PhreeqcState α) (lid : Nat) : Option (List ScriptItem) :=
  let g := map lid
  (surfaceItems p.surface p.dump num_chemical_systems g).map fun sp =>
    [.solution (g + 1), .solutionBody] ++ prevBlockItems p.dump lid ++
    [.useSolutionNone, .endBlock, .useSolution (g + 1)] ++
    phasesItems p.equilibrium_phases g ++
    kineticsItems p.kinetic_reactants g ++ sp ++ [.endBlock]

/-- The numeric key of a block header line, when the line has one:
`SOLUTION`, `USE solution <n>`, `EQUILIBRIUM_PHASES`, `KINETICS`,
`SURFACE` and `SAVE solution` lines carry keys. -/
def keyOf : ScriptItem → Option Nat
  | .solution k => some k
  | .useSolution k => some k
  | .equilibriumPhases k => some k
  | .kinetics k => some k
  | .surfaceBlock k => some k
  | .saveSolution k => some k
  | _ => none

/-- All numeric block keys of an emitted item list. -/
def blockKeys (items : List ScriptItem) : List Nat :=
  items.filterMap keyOf

/-- The `-equilibrate with solution` index of an emitted line, when the
line is the equilibrate directive. -/
def eqIdxOf : ScriptItem → Option Nat
  | .equilibrate i => some i
  | _ => none

/-- All `-equilibrate with solution` indices of an emitted item list. -/
def equilibrateIndices (items : List ScriptItem) : List Nat :=
  items.filterMap eqIdxOf

/-! ## The coupling-orchestrator phase
`PhreeqcIO::setAqueousSolutionsOrUpdateProcessSolutions` (lines 142-219)

The loop body over one `_process_id_to_component_name_map` element, for
one chemical system with mapped `global_id`, is modelled over ℝ (the C++
doubles).  The transport-process solution vector is a function
`Nat → ℝ` accessed by `get`/`set` at `global_id`; the model additionally
returns the ordered trace of `set` calls performed. -/

/-- The two phases of the orchestrator (PhreeqcIO.h `Status`). -/
inductive Status where
  | SettingAqueousSolutions
  | UpdatingProcessSolutions
deriving DecidableEq, Repr

/-- `std::find_if` over a list. -/
def findFirst (p : β → Bool) : List β → Option β
  | [] => none
  | x :: xs => if p x then some x else findFirst p xs

/-- Assignment through the iterator found by `std::find_if`: overwrite
the first component of the given name (no-op when absent, mirroring the
`component != components.end()` guard). -/
def setFirstAmount (name : String) (v : α) : List (Component α) → List (Component α)
  | [] => []
  | c :: cs =>
    if c.name == name then { c with amount := v } :: cs
    else c :: setFirstAmount name v cs

/-- `GlobalVector::set` on the indexed-get/set view of a transport
solution vector. -/
def setVec (vec : Nat → ℝ) (i : Nat) (x : ℝ) : Nat → ℝ :=
  fun j => if j = i then x else vec j

/-- Lines 195-216: the special hydrogen branch.  When the transport
quantity is named "H", `SettingAqueousSolutions` stores
`pH = -log10(get(global_id))` and `UpdatingProcessSolutions` writes back
`10^-pH`. -/
noncomputable def hydrogenStep (status : Status) (g : Nat) (name : String)
    (sol : AqueousSolution ℝ) (vec : Nat → ℝ) (writes : List (Nat × ℝ)) :
    AqueousSolution ℝ × (Nat → ℝ) × List (Nat × ℝ) :=
  if name == "H" then
    match status with
    | .SettingAqueousSolutions =>
      ({ sol with pH := -Real.logb 10 (vec g) }, vec, writes)
    | .UpdatingProcessSolutions =>
      (sol, setVec vec g ((10 : ℝ) ^ (-sol.pH)),
        writes ++ [(g, (10 : ℝ) ^ (-sol.pH))])
  else (sol, vec, writes)

/-- Lines 161-217: the loop body for one element
`(transport_process_id, name)` of `_process_id_to_component_name_map`,
acting on that process's solution vector `vec` for the system with mapped
global id `g`.  First the component branch (lines 172-193): if a
component of that name exists, `SettingAqueousSolutions` copies
`get(global_id)` into its amount and `UpdatingProcessSolutions` writes
the amount back with `set(global_id, amount)`.  Then the hydrogen branch
(lines 195-216) runs unconditionally on the name. -/
noncomputable def processEntry (status : Status) (g : Nat) (name : String)
    (sol : AqueousSolution ℝ) (vec : Nat → ℝ) :
    AqueousSolution ℝ × (Nat → ℝ) × List (Nat × ℝ) :=
  match findFirst (fun c => c.name == name) sol.components with
  | some c =>
    match status with
    | .SettingAqueousSolutions =>
      hydrogenStep status g name
        { sol with components := setFirstAmount name (vec g) sol.components }
        vec []
    | .UpdatingProcessSolutions =>
      hydrogenStep status g name sol (setVec vec g c.amount) [(g, c.amount)]
  | none => hydrogenStep status g name sol vec []

/-! ## Spec-side view of the result table (for the line-structure claim) -/

/-- Modelled from the spec (§4.4): the result table seen as, per system in
`local_id` order, exactly one optional data row (already extracted from
the stream), each processed with the system's mapped global id; a missing
row is the fatal read error naming the global id. -/
def specReadRows (map : Nat → Nat) :
    Nat → List (Option String) → PhreeqcState ℚ → Except ReadError (PhreeqcState ℚ)
  | _, [], st => .ok st
  | lid, r :: rs, st =>
    match r with
    | none => .error (.readFail (map lid))
    | some line =>
      match readSystem (map lid) lid line st with
      | .error e => .error e
      | .ok st' => specReadRows map (lid + 1) rs st'

/-- Modelled from the spec (§4.4): with `s` skip-lines per system, the
data row of system `k` is the line at absolute index
`1 + (s + 1) * k + s` — one header line, then per previous system `s`
skipped lines and one data row, then this system's `s` skipped lines. -/
def specDataRows (s N : Nat) (lines : List String) : List (Option String) :=
  (List.range N).map fun k => lines[1 + ((s + 1) * k + s)]?

/-- The array-valued content of the state at global position `i`: the
equilibrium-phase amounts, kinetic-reactant amounts and secondary-variable
values stored at index `i`, tagged with their entity names. -/
def arraysAt (st : PhreeqcState α) (i : Nat) :
    List (String × Option α) × List (String × Option α) ×
      Option (List (String × Option α)) :=
  (st.equilibrium_phases.map fun e => (e.name, e.amount[i]?),
   st.kinetic_reactants.map fun r => (r.name, r.amount[i]?),
   st.user_punch.map fun up =>
     up.secondary_variables.map fun sv => (sv.name, sv.value[i]?))

example : tokenize " 7.0\t 4.0  1.5 " = ["7.0", "4.0", "1.5"] := rfl
example : stod "7.0" = some 7 := by
  simp [stod, stodSignSplit, stodFracSplit, stodExponent,
    stodExponentAfterE, stodExponentDigits, digitsToNat]
example : stod "1.5" = some (3/2) := by
  simp [stod, stodSignSplit, stodFracSplit, stodExponent,
    stodExponentAfterE, stodExponentDigits, digitsToNat]
  norm_num
example : stod "-2.5e1" = some (-25) := by
  simp [stod, stodSignSplit, stodFracSplit, stodExponent,
    stodExponentAfterE, stodExponentDigits, digitsToNat]
  norm_num
example : stod "abc" = none := rfl
example : stod "" = none := rfl
example : stod "1e" = some 1 := by
  simp [stod, stodSignSplit, stodFracSplit, stodExponent,
    stodExponentAfterE, stodExponentDigits, digitsToNat]


/-! ## Key bookkeeping of the serializer -/

lemma blockKeys_append (a b : List ScriptItem) :
    blockKeys (a ++ b) = blockKeys a ++ blockKeys b :=
  List.filterMap_append a b keyOf

lemma blockKeys_prevBlockItems (o : Option (Dump α)) (lid : Nat) :
    blockKeys (prevBlockItems o lid) = [] := by
  cases o with
  | none => rfl
  | some d =>
    cases hd : d.aqueous_solutions_prev.isEmpty <;>
      simp [prevBlockItems, hd, blockKeys, keyOf]

lemma blockKeys_map_phaseBody (ps : List (EquilibriumPhase α)) :
    blockKeys (ps.map fun p => ScriptItem.phaseBody p.name) = [] := by
  induction ps with
  | nil => rfl
  | cons p ps ih => simp [blockKeys, keyOf, ih]

lemma blockKeys_map_kineticBody (ks : List (KineticReactant α)) :
    blockKeys (ks.map fun r => ScriptItem.kineticBody r.name) = [] := by
  induction ks with
  | nil => rfl
  | cons r ks ih => simp [blockKeys, keyOf, ih]

lemma blockKeys_map_surfaceSiteBody (ss : List SurfaceSite) :
    blockKeys (ss.map fun s => ScriptItem.surfaceSiteBody s.name) = [] := by
  induction ss with
  | nil => rfl
  | cons s ss ih => simp [blockKeys, keyOf, ih]

lemma blockKeys_phasesItems (ps : List (EquilibriumPhase α)) (g : Nat) :
    blockKeys (phasesItems ps g) = if ps.isEmpty then [] else [g + 1] := by
  cases hp : ps.isEmpty <;>
    simp [phasesItems, hp, blockKeys, keyOf, blockKeys_map_phaseBody]

lemma blockKeys_kineticsItems (ks : List (KineticReactant α)) (g : Nat) :
    blockKeys (kineticsItems ks g) = if ks.isEmpty then [] else [g + 1] := by
  cases hk : ks.isEmpty <;>
    simp [kineticsItems, hk, blockKeys, keyOf, blockKeys_append,
      blockKeys_map_kineticBody]

lemma blockKeys_surfaceItems (surface : List SurfaceSite)
    (o : Option (Dump α)) (num g : Nat) (sp : List ScriptItem)
    (h : surfaceItems surface o num g = some sp) :
    ∀ k ∈ blockKeys sp, k = g + 1 := by
  by_cases hs : surface.isEmpty
  · simp [surfaceItems, hs] at h
    subst h
    simp [blockKeys]
  · cases o with
    | none => simp [surfaceItems, hs] at h
    | some d =>
      simp [surfaceItems, hs] at h
      intro k hk
      simp [← h, blockKeys, keyOf, blockKeys_map_surfaceSiteBody,
        List.filterMap_append] at hk
      rcases hk with h1 | h1
      all_goals omega

/-- Every numeric block key emitted for the system at `local_id` is
`map local_id + 1`. -/
lemma writeSystem_keys {num : Nat} {map : Nat → Nat} {p : PhreeqcState α}
    {lid : Nat} {items : List ScriptItem}
    (hw : writeSystem num map p lid = some items) :
    ∀ k ∈ blockKeys items, k = map lid + 1 := by
  rcases Option.map_eq_some'.mp hw with ⟨sp, hsp, hitems⟩
  intro k hk
  rw [← hitems] at hk
  simp only [blockKeys_append, List.append_assoc, List.mem_append] at hk
  rcases hk with h1 | h1
  · simp [blockKeys, keyOf] at h1
    exact h1
  rw [blockKeys_prevBlockItems] at h1
  simp only [List.mem_append, List.not_mem_nil, false_or] at h1
  rcases h1 with h1 | h1
  · simp [blockKeys, keyOf] at h1
    exact h1
  rcases h1 with h1 | h1
  · rw [blockKeys_phasesItems] at h1
    by_cases hp : p.equilibrium_phases.isEmpty <;> simp [hp] at h1
    exact h1
  rcases h1 with h1 | h1
  · rw [blockKeys_kineticsItems] at h1
    by_cases hkk : p.kinetic_reactants.isEmpty <;> simp [hkk] at h1
    exact h1
  rcases h1 with h1 | h1
  · exact blockKeys_surfaceItems p.surface p.dump num (map lid) sp hsp k h1
  · simp [blockKeys, keyOf] at h1

/-- Claim C9: when surface sites are configured, the serializer's SURFACE
branch reads the dump object unguardedly; with no dump configured the
per-system serialization has no defined result (null-pointer dereference
at PhreeqcIO.cpp line 345), so a configured dump is a precondition for
surface chemistry. -/
theorem C9_surface_requires_dump (num : Nat) (map : Nat → Nat)
    (p : PhreeqcState α) (lid : Nat)
    (hs : p.surface.isEmpty = false) (hd : p.dump = none) :
    writeSystem num map p lid = none := by
  simp [writeSystem, surfaceItems, hs, hd]

theorem C9_witness :
    writeSystem 1 (fun k => k)
      (PhreeqcState.mk (α := ℚ) [] [] [] [⟨"Hfo_w"⟩] none ⟨[], []⟩ none)
      0 = none :=
  C9_surface_requires_dump 1 (fun k => k) _ 0 (by decide) rfl

/-! ## Equilibration indices of the serializer -/

lemma equilibrateIndices_append (a b : List ScriptItem) :
    equilibrateIndices (a ++ b) = equilibrateIndices a ++ equilibrateIndices b :=
  List.filterMap_append a b eqIdxOf

lemma equilibrateIndices_prevBlockItems (o : Option (Dump α)) (lid : Nat) :
    equilibrateIndices (prevBlockItems o lid) = [] := by
  cases o with
  | none => rfl
  | some d =>
    cases hd : d.aqueous_solutions_prev.isEmpty <;>
      simp [prevBlockItems, hd, equilibrateIndices, eqIdxOf]

lemma equilibrateIndices_map_phaseBody (ps : List (EquilibriumPhase α)) :
    equilibrateIndices (ps.map fun p => ScriptItem.phaseBody p.name) = [] := by
  induction ps with
  | nil => rfl
  | cons p ps ih => simp [equilibrateIndices, eqIdxOf, ih]

lemma equilibrateIndices_map_kineticBody (ks : List (KineticReactant α)) :
    equilibrateIndices (ks.map fun r => ScriptItem.kineticBody r.name) = [] := by
  induction ks with
  | nil => rfl
  | cons r ks ih => simp [equilibrateIndices, eqIdxOf, ih]

lemma equilibrateIndices_map_surfaceSiteBody (ss : List SurfaceSite) :
    equilibrateIndices (ss.map fun s => ScriptItem.surfaceSiteBody s.name) = [] := by
  induction ss with
  | nil => rfl
  | cons s ss ih => simp [equilibrateIndices, eqIdxOf, ih]

lemma equilibrateIndices_phasesItems (ps : List (EquilibriumPhase α)) (g : Nat) :
    equilibrateIndices (phasesItems ps g) = [] := by
  cases hp : ps.isEmpty <;>
    simp [phasesItems, hp, equilibrateIndices, eqIdxOf,
      equilibrateIndices_map_phaseBody]

lemma equilibrateIndices_kineticsItems (ks : List (KineticReactant α)) (g : Nat) :
    equilibrateIndices (kineticsItems ks g) = [] := by
  cases hk : ks.isEmpty <;>
    simp [kineticsItems, hk, equilibrateIndices, eqIdxOf,
      equilibrateIndices_append, equilibrateIndices_map_kineticBody]

/-- Claim C2 (amended): with surface sites configured and a dump object
configured, the per-system serialization succeeds and emits exactly one
`-equilibrate with solution` index: `global_id + 1` when the dump's
previous-state block set is empty, `num_chemical_systems + global_id + 1`
when it is non-empty (PhreeqcIO.cpp lines 344-349). -/
theorem C2_surface_equilibration_index (num : Nat) (map : Nat → Nat)
    (p : PhreeqcState α) (lid : Nat) (d : Dump α)
    (hs : p.surface.isEmpty = false) (hd : p.dump = some d) :
    ∃ items, writeSystem num map p lid = some items ∧
      equilibrateIndices items =
        [if d.aqueous_solutions_prev.isEmpty then map lid + 1
         else num + map lid + 1] := by
  have hsp : surfaceItems p.surface p.dump num (map lid) =
      some (.surfaceBlock (map lid + 1) ::
        .equilibrate (if d.aqueous_solutions_prev.isEmpty then map lid + 1
          else num + map lid + 1) ::
        .sitesUnits :: (p.surface.map fun s => .surfaceSiteBody s.name) ++
        [.saveSolution (map lid + 1)]) := by
    simp [surfaceItems, hs, hd]
  refine ⟨[.solution (map lid + 1), .solutionBody] ++ prevBlockItems p.dump lid ++
      [.useSolutionNone, .endBlock, .useSolution (map lid + 1)] ++
      phasesItems p.equilibrium_phases (map lid) ++
      kineticsItems p.kinetic_reactants (map lid) ++
      (.surfaceBlock (map lid + 1) ::
        .equilibrate (if d.aqueous_solutions_prev.isEmpty then map lid + 1
          else num + map lid + 1) ::
        .sitesUnits :: (p.surface.map fun s => .surfaceSiteBody s.name) ++
        [.saveSolution (map lid + 1)]) ++ [.endBlock], ?_, ?_⟩
  · simp only [writeSystem, hsp, Option.map_some']
  · simp only [equilibrateIndices_append, equilibrateIndices_prevBlockItems,
      equilibrateIndices_phasesItems, equilibrateIndices_kineticsItems,
      List.append_assoc, List.nil_append, List.append_nil]
    simp [equilibrateIndices, eqIdxOf, equilibrateIndices_map_surfaceSiteBody,
      List.filterMap_append]

theorem C2_witness :
    ∃ items,
      writeSystem 2 (fun k => k)
        (PhreeqcState.mk (α := ℚ) [] [] [] [⟨"Hfo_w"⟩] none ⟨[], []⟩
          (some ⟨[]⟩)) 0 = some items ∧
      equilibrateIndices items = [1] :=
  C2_surface_equilibration_index 2 (fun k => k) _ 0 ⟨[]⟩ (by decide) rfl

/-- Claim C2, as stated, is false at its "no previous-state mechanism
configured" half: with surface sites but no dump configured the
serializer does not produce a script with equilibration index
`global_id + 1`; it dereferences the null dump (no output at all). -/
theorem C2_counterexample :
    ¬ ∃ items,
        writeSystem 1 (fun k => k)
          (PhreeqcState.mk (α := ℚ) [] [] [] [⟨"Hfo_w"⟩] none ⟨[], []⟩ none)
          0 = some items ∧
        equilibrateIndices items = [1] := by
  intro h
  rcases h with ⟨items, h1, h2⟩
  rw [show writeSystem 1 (fun k => k)
      (PhreeqcState.mk (α := ℚ) [] [] [] [⟨"Hfo_w"⟩] none ⟨[], []⟩ none)
      0 = none from rfl] at h1
  exact Option.noConfusion h1

/-- Claim C5: every numeric key on the SOLUTION, USE solution,
EQUILIBRIUM_PHASES, KINETICS, SURFACE and SAVE solution lines emitted for
the system at `local_id` is `global_id + 1 = map local_id + 1`, and when
the index map moves this system (`map local_id ≠ local_id`) no key equals
`local_id + 1`. -/
theorem C5_block_numbering (num : Nat) (map : Nat → Nat)
    (p : PhreeqcState α) (lid : Nat) (items : List ScriptItem)
    (hw : writeSystem num map p lid = some items) :
    (∀ k ∈ blockKeys items, k = map lid + 1) ∧
    (map lid ≠ lid → ∀ k ∈ blockKeys items, k ≠ lid + 1) := by
  refine ⟨writeSystem_keys hw, fun hne k hk h1 => hne ?_⟩
  have h2 := writeSystem_keys hw k hk
  omega

theorem C5_witness :
    (∀ k ∈ blockKeys
        [ScriptItem.solution 4, .solutionBody, .useSolutionNone, .endBlock,
         .useSolution 4, .equilibriumPhases 4, .phaseBody "Calcite",
         .kinetics 4, .kineticBody "Pyrite", .steps, .surfaceBlock 4,
         .equilibrate 4, .sitesUnits, .surfaceSiteBody "Hfo_w",
         .saveSolution 4, .endBlock], k = 0 + 3 + 1) ∧
    (0 + 3 ≠ 0 → ∀ k ∈ blockKeys
        [ScriptItem.solution 4, .solutionBody, .useSolutionNone, .endBlock,
         .useSolution 4, .equilibriumPhases 4, .phaseBody "Calcite",
         .kinetics 4, .kineticBody "Pyrite", .steps, .surfaceBlock 4,
         .equilibrate 4, .sitesUnits, .surfaceSiteBody "Hfo_w",
         .saveSolution 4, .endBlock], k ≠ 0 + 1) := by
  exact C5_block_numbering 5 (fun k => k + 3)
    (PhreeqcState.mk (α := ℚ) [] [⟨"Calcite", []⟩] [⟨"Pyrite", []⟩]
      [⟨"Hfo_w"⟩] none ⟨[], []⟩ (some ⟨[]⟩)) 0
    [ScriptItem.solution 4, .solutionBody, .useSolutionNone, .endBlock,
     .useSolution 4, .equilibriumPhases 4, .phaseBody "Calcite",
     .kinetics 4, .kineticBody "Pyrite", .steps, .surfaceBlock 4,
     .equilibrate 4, .sitesUnits, .surfaceSiteBody "Hfo_w",
     .saveSolution 4, .endBlock] (by decide)

/-! ## Line structure of the result-file deserializer -/

/-- The per-system loop of `operator>>` consumes, for the `j`-th remaining
system, exactly `s` skipped lines and then one data row: the data row is
the line at relative index `(s + 1) * j + s` of the remaining stream. -/
lemma readOutputsLoop_eq_specReadRows (map : Nat → Nat) (s : Nat) :
    ∀ (n lid : Nat) (lines : List String) (st : PhreeqcState ℚ),
      readOutputsLoop map s n lid lines st =
        specReadRows map lid
          ((List.range n).map fun j => lines[(s + 1) * j + s]?) st := by
  intro n
  induction n with
  | zero => intro lid lines st; simp [readOutputsLoop, specReadRows]
  | succ n ih =>
    intro lid lines st
    rw [List.range_succ_eq_map]
    simp only [List.map_cons, List.map_map, readOutputsLoop, List.head?_drop]
    have hidx : (s + 1) * 0 + s = s := by ring
    rw [hidx]
    cases hln : lines[s]? with
    | none => simp [specReadRows, hln]
    | some line =>
      cases hrs : readSystem (map lid) lid line st with
      | error e => simp [specReadRows, hln, hrs]
      | ok st' =>
        simp only [specReadRows, hln, hrs]
        rw [ih (lid + 1) (lines.drop (s + 1)) st']
        congr 1
        apply List.map_congr_left
        intro j _
        simp only [Function.comp]
        rw [List.getElem?_drop]
        congr 1
        simp only [Nat.succ_eq_add_one]
        ring

/-- Claim C7: reading the result file skips exactly one header line and
then, per system in `local_id` order, exactly `numSkippedLines` lines
(1 without surface sites, 2 with surface chemistry active) before
consuming exactly one data row: the data row of system `k` is the line at
absolute index `1 + (s + 1) * k + s`. -/
theorem C7_result_line_structure (map : Nat → Nat) (N : Nat)
    (lines : List String) (st : PhreeqcState ℚ) :
    readOutputs map N lines st =
      specReadRows map 0 (specDataRows (numSkippedLines st) N lines) st := by
  rw [readOutputs, readOutputsLoop_eq_specReadRows]
  congr 1
  apply List.map_congr_left
  intro j _
  rw [List.getElem?_drop]

/-! ## Dropped columns and conversion failures of the row parser -/

/-- Two token rows of equal arity that agree on every non-dropped column
parse identically. -/
lemma parseItemsGo_congr (dropped : List Nat) (g : Nat) :
    ∀ (itemsA itemsB : List String) (idx : Nat),
      itemsA.length = itemsB.length →
      (∀ j, (idx + j) ∉ dropped → itemsA[j]? = itemsB[j]?) →
      parseItemsGo dropped g itemsA idx = parseItemsGo dropped g itemsB idx := by
  intro itemsA
  induction itemsA with
  | nil =>
    intro itemsB idx hlen _
    cases itemsB with
    | nil => rfl
    | cons b bs => simp at hlen
  | cons a as ih =>
    intro itemsB idx hlen hagree
    cases itemsB with
    | nil => simp at hlen
    | cons b bs =>
      have hlen' : as.length = bs.length := by simpa using hlen
      have hshift : ∀ j, (idx + 1 + j) ∉ dropped → as[j]? = bs[j]? := by
        intro j hj
        have h := hagree (j + 1) (by
          rw [show idx + (j + 1) = idx + 1 + j from by omega]; exact hj)
        simpa using h
      by_cases hd : idx ∈ dropped
      · simp only [parseItemsGo, if_pos hd]
        exact ih bs (idx + 1) hlen' hshift
      · have hab : a = b := by
          have h := hagree 0 (by simpa using hd)
          simpa using h
        subst hab
        simp only [parseItemsGo, if_neg hd]
        cases stod a with
        | none => rfl
        | some v => rw [ih bs (idx + 1) hlen' hshift]

/-- Claim C6: columns in the drop set never influence the deserialized
state: two data rows of equal arity agreeing on every column outside
`dropped_item_ids` produce identical outcomes (identical entity states on
success, identical errors on failure). -/
theorem C6_drop_set_noninterference (g lid : Nat) (st : PhreeqcState ℚ)
    (itemsA itemsB : List String)
    (hlen : itemsA.length = itemsB.length)
    (hagree : ∀ j, j ∉ st.output.dropped_item_ids → itemsA[j]? = itemsB[j]?) :
    processItems g lid itemsA st = processItems g lid itemsB st := by
  unfold processItems
  rw [parseItemsGo_congr st.output.dropped_item_ids g itemsA itemsB 0 hlen
    (fun j hj => hagree j (by simpa using hj))]

theorem C6_witness :
    processItems 0 0 ["99", "7.0"]
        (PhreeqcState.mk [⟨6, 4, []⟩] [] [] [] none ⟨[⟨"pH", .pH⟩], [0]⟩ none) =
      processItems 0 0 ["-3", "7.0"]
        (PhreeqcState.mk [⟨6, 4, []⟩] [] [] [] none ⟨[⟨"pH", .pH⟩], [0]⟩ none) :=
  C6_drop_set_noninterference 0 0 _ ["99", "7.0"] ["-3", "7.0"] rfl
    (by
      intro j hj
      rcases j with _ | _ | n
      · exact absurd (by simp) hj
      · rfl
      · rfl)

/-- Every parse error reported by the token loop names the system's
global id. -/
lemma parseItemsGo_error_systemId (dropped : List Nat) (g : Nat) :
    ∀ (items : List String) (idx : Nat) (e : ParseError),
      parseItemsGo dropped g items idx = .error e → e.systemId = g := by
  intro items
  induction items with
  | nil => intro idx e h; simp [parseItemsGo] at h
  | cons a as ih =>
    intro idx e h
    by_cases hd : idx ∈ dropped
    · rw [parseItemsGo, if_pos hd] at h
      exact ih (idx + 1) e h
    · rw [parseItemsGo, if_neg hd] at h
      cases hstod : stod a with
      | none =>
        rw [hstod] at h
        cases h
        rfl
      | some v =>
        rw [hstod] at h
        cases hrec : parseItemsGo dropped g as (idx + 1) with
        | error e2 =>
          rw [hrec] at h
          cases h
          exact ih (idx + 1) e hrec
        | ok vs => rw [hrec] at h; cases h

/-- A non-dropped token that does not convert forces the whole row parse
into an error. -/
lemma parseItemsGo_isError (dropped : List Nat) (g : Nat) :
    ∀ (items : List String) (idx j : Nat) (tok : String),
      items[j]? = some tok → (idx + j) ∉ dropped → stod tok = none →
      ∃ e, parseItemsGo dropped g items idx = .error e := by
  intro items
  induction items with
  | nil => intro idx j tok h _ _; simp at h
  | cons a as ih =>
    intro idx j tok hj hdrop hbad
    cases j with
    | zero =>
      have ha : a = tok := by simpa using hj
      subst ha
      have hd : idx ∉ dropped := by simpa using hdrop
      refine ⟨⟨a, g, idx⟩, ?_⟩
      rw [parseItemsGo, if_neg hd, hbad]
    | succ n =>
      have hj' : as[n]? = some tok := by simpa using hj
      have hdrop' : (idx + 1 + n) ∉ dropped := by
        rw [show idx + 1 + n = idx + (n + 1) from by omega]; exact hdrop
      by_cases hd : idx ∈ dropped
      · rcases ih (idx + 1) n tok hj' hdrop' hbad with ⟨e, he⟩
        exact ⟨e, by rw [parseItemsGo, if_pos hd]; exact he⟩
      · cases hstod : stod a with
        | none => exact ⟨⟨a, g, idx⟩, by rw [parseItemsGo, if_neg hd, hstod]⟩
        | some v =>
          rcases ih (idx + 1) n tok hj' hdrop' hbad with ⟨e, he⟩
          exact ⟨e, by rw [parseItemsGo, if_neg hd, hstod, he]⟩

/-- When all earlier non-dropped tokens convert, the reported error is
exactly the offending token with its raw column index. -/
lemma parseItemsGo_first_error (dropped : List Nat) (g : Nat) :
    ∀ (items : List String) (idx j : Nat) (tok : String),
      items[j]? = some tok → (idx + j) ∉ dropped → stod tok = none →
      (∀ i t, i < j → (idx + i) ∉ dropped → items[i]? = some t →
        (stod t).isSome) →
      parseItemsGo dropped g items idx = .error ⟨tok, g, idx + j⟩ := by
  intro items
  induction items with
  | nil => intro idx j tok h _ _ _; simp at h
  | cons a as ih =>
    intro idx j tok hj hdrop hbad hpre
    cases j with
    | zero =>
      have ha : a = tok := by simpa using hj
      subst ha
      have hd : idx ∉ dropped := by simpa using hdrop
      rw [parseItemsGo, if_neg hd, hbad]
      simp
    | succ n =>
      have hj' : as[n]? = some tok := by simpa using hj
      have heq : idx + (n + 1) = idx + 1 + n := by omega
      have hdrop' : (idx + 1 + n) ∉ dropped := by rw [← heq]; exact hdrop
      have hpre' : ∀ i t, i < n → (idx + 1 + i) ∉ dropped →
          as[i]? = some t → (stod t).isSome := by
        intro i t hi hdi hgi
        exact hpre (i + 1) t (by omega)
          (by rw [show idx + (i + 1) = idx + 1 + i from by omega]; exact hdi)
          (by simpa using hgi)
      by_cases hd : idx ∈ dropped
      · rw [parseItemsGo, if_pos hd, heq]
        exact ih (idx + 1) n tok hj' hdrop' hbad hpre'
      · have hsome := hpre 0 a (by omega) (by simpa using hd) (by simp)
        cases hstod : stod a with
        | none => rw [hstod] at hsome; simp at hsome
        | some v =>
          rw [parseItemsGo, if_neg hd, hstod, heq,
            ih (idx + 1) n tok hj' hdrop' hbad hpre']

/-- Claim C8: a non-dropped token of a data row that cannot be converted
makes the whole row deserialization fail with a parse error naming the
system's global id; when it is the first such token, the error carries
exactly the offending token text, the system id and the raw column
index.  No conversion failure is swallowed. -/
theorem C8_conversion_failure_fatal (g lid : Nat) (st : PhreeqcState ℚ)
    (items : List String) (j : Nat) (tok : String)
    (hj : items[j]? = some tok)
    (hdrop : j ∉ st.output.dropped_item_ids)
    (hbad : stod tok = none) :
    (∃ e, processItems g lid items st = .error (.parse e) ∧ e.systemId = g) ∧
    ((∀ i t, i < j → i ∉ st.output.dropped_item_ids → items[i]? = some t →
        (stod t).isSome) →
      processItems g lid items st = .error (.parse ⟨tok, g, j⟩)) := by
  constructor
  · rcases parseItemsGo_isError st.output.dropped_item_ids g items 0 j tok hj
      (by simpa using hdrop) hbad with ⟨e, he⟩
    refine ⟨e, ?_, parseItemsGo_error_systemId st.output.dropped_item_ids g
      items 0 e he⟩
    unfold processItems
    rw [he]
  · intro hpre
    have h := parseItemsGo_first_error st.output.dropped_item_ids g items 0 j
      tok hj (by simpa using hdrop) hbad
      (fun i t hi hdi hgi => hpre i t hi (by simpa using hdi) hgi)
    unfold processItems
    rw [h]
    simp

theorem C8_witness :
    processItems 3 0 ["1.0", "abc"]
        (PhreeqcState.mk (α := ℚ) [⟨6, 4, []⟩] [] [] [] none
          ⟨[⟨"pH", .pH⟩, ⟨"pe", .pe⟩], []⟩ none) =
      .error (.parse ⟨"abc", 3, 1⟩) :=
  (C8_conversion_failure_fatal 3 0 _ ["1.0", "abc"] 1 "abc" (by simp) (by simp)
      rfl).2
    (by
      intro i t hi _ hget
      have hi0 : i = 0 := by omega
      subst hi0
      have ht : t = "1.0" := by simpa using hget.symm
      subst ht
      rfl)

/-! ## Arity mismatch of a data row (release semantics) -/

/-- Claim C1 fails on the code: the arity check of the row parser exists
only as the debug `assert` at line 479, compiled out under NDEBUG.  Fed a
data row with one token fewer than
`len(accepted_items) + len(dropped_item_ids) = 2`, the deserializer
returns success and routes the one present value, overwriting the
system's pH and leaving pe stale — silent truncation with mutation, not a
fatal parse error. -/
theorem C1_short_row_silently_truncates :
    readSystem 9 0 "7.0"
        (PhreeqcState.mk (α := ℚ) [⟨6, 4, []⟩] [] [] [] none
          ⟨[⟨"pH", .pH⟩, ⟨"pe", .pe⟩], []⟩ none) =
      .ok (PhreeqcState.mk (α := ℚ) [⟨7, 4, []⟩] [] [] [] none
          ⟨[⟨"pH", .pH⟩, ⟨"pe", .pe⟩], []⟩ none) := by
  simp [readSystem, processItems, parseItemsGo, tokenize, splitCompress,
    isSepChar, routeItems, routeOne, updateFirst, stod, stodSignSplit,
    stodFracSplit, stodExponent, stodExponentAfterE, stodExponentDigits,
    digitsToNat]

/-! ## Index lockstep between serializer and deserializer -/

/-- Updating the first matching element through `updateFirst` preserves
any projection that the update function preserves. -/
lemma updateFirst_map_eq {p : β → Bool} {f : β → β} (e : β → γ)
    (hf : ∀ x, e (f x) = e x) :
    ∀ {l l' : List β}, updateFirst p f l = some l' → l'.map e = l.map e := by
  intro l
  induction l with
  | nil => intro l' h; simp [updateFirst] at h
  | cons x xs ih =>
    intro l' h
    by_cases hp : p x
    · rw [updateFirst, if_pos hp] at h
      injection h with h
      subst h
      simp [hf]
    · rw [updateFirst, if_neg hp] at h
      rcases Option.map_eq_some'.mp h with ⟨ys, hys, hl'⟩
      subst hl'
      simp [ih hys]

/-- One routing step writes array-valued entries only at the global id
`g`: every other global position is untouched. -/
lemma routeOne_frame (st : PhreeqcState ℚ) (g lid item_id : Nat) (v : ℚ)
    (st' : PhreeqcState ℚ) (h : routeOne st g lid item_id v = .ok st') :
    ∀ i, i ≠ g → arraysAt st' i = arraysAt st i := by
  intro i hig
  have hgi : g ≠ i := fun hgi => hig hgi.symm
  unfold routeOne at h
  split at h
  · cases h
  · split at h
    · -- pH
      split at h
      · cases h
      · injection h with h
        subst h
        simp [arraysAt]
    · -- pe
      split at h
      · cases h
      · injection h with h
        subst h
        simp [arraysAt]
    · -- Component
      split at h
      · cases h
      · split at h
        · cases h
        · injection h with h
          subst h
          simp [arraysAt]
    · -- EquilibriumPhase
      split at h
      · cases h
      · rename_i l hupd
        injection h with h
        subst h
        simp only [arraysAt]
        rw [updateFirst_map_eq (fun e => (e.name, e.amount[i]?))
          (fun e => by simp [List.getElem?_set_ne hgi]) hupd]
    · -- KineticReactant
      split at h
      · cases h
      · rename_i l hupd
        injection h with h
        subst h
        simp only [arraysAt]
        rw [updateFirst_map_eq (fun r => (r.name, r.amount[i]?))
          (fun r => by simp [List.getElem?_set_ne hgi]) hupd]
    · -- SecondaryVariable
      split at h
      · cases h
      · rename_i up hup
        split at h
        · cases h
        · rename_i l hupd
          injection h with h
          subst h
          simp only [arraysAt, hup, Option.map_some']
          rw [updateFirst_map_eq (fun sv => (sv.name, sv.value[i]?))
            (fun sv => by simp [List.getElem?_set_ne hgi]) hupd]

/-- The routing loop writes array-valued entries only at `g`. -/
lemma routeItems_frame (g lid : Nat) :
    ∀ (vs : List ℚ) (item_id : Nat) (st st' : PhreeqcState ℚ),
      routeItems g lid vs item_id st = .ok st' →
      ∀ i, i ≠ g → arraysAt st' i = arraysAt st i := by
  intro vs
  induction vs with
  | nil =>
    intro item_id st st' h i hig
    injection h with h
    subst h
    rfl
  | cons v vs ih =>
    intro item_id st st' h i hig
    rw [routeItems] at h
    cases hro : routeOne st g lid item_id v with
    | error e => rw [hro] at h; cases h
    | ok st1 =>
      rw [hro] at h
      calc arraysAt st' i = arraysAt st1 i := ih (item_id + 1) st1 st' h i hig
        _ = arraysAt st i := routeOne_frame st g lid item_id v st1 hro i hig

/-- Reading one data row writes array-valued entries only at its `g`. -/
lemma readSystem_frame (g lid : Nat) (line : String)
    (st st' : PhreeqcState ℚ) (h : readSystem g lid line st = .ok st') :
    ∀ i, i ≠ g → arraysAt st' i = arraysAt st i := by
  unfold readSystem processItems at h
  split at h
  · cases h
  · split at h
    · cases h
    · rename_i st2 hr
      injection h with h
      subst h
      exact routeItems_frame g lid _ 0 st st2 hr

/-- The whole result-file read writes array-valued entries only at the
global ids `map k` of the systems it processes. -/
lemma readOutputsLoop_frame (map : Nat → Nat) (s : Nat) :
    ∀ (n lid : Nat) (lines : List String) (st st' : PhreeqcState ℚ),
      readOutputsLoop map s n lid lines st = .ok st' →
      ∀ i, (∀ k, lid ≤ k → k < lid + n → map k ≠ i) →
        arraysAt st' i = arraysAt st i := by
  intro n
  induction n with
  | zero =>
    intro lid lines st st' h i _
    injection h with h
    subst h
    rfl
  | succ n ih =>
    intro lid lines st st' h i hk
    rw [readOutputsLoop] at h
    split at h
    · cases h
    · rename_i line hline
      split at h
      · cases h
      · rename_i st1 hrs
        have h1 := readSystem_frame (map lid) lid line st st1 hrs i
          (Ne.symm (hk lid (by omega) (by omega)))
        have h2 := ih (lid + 1) (lines.drop (s + 1)) st1 st' h i
          (fun k hk1 hk2 => hk k (by omega) (by omega))
        rw [h2, h1]

/-- Claim C3: the serializer and the deserializer consult the same
`local_id → global_id` map: the block keys written for system `local_id`
are `map local_id + 1`, and a successful read of the whole result table
leaves every array-valued entry at a global position outside the image of
`map` on `[0, N)` unchanged — routed values land at the mapped global
positions, not at loop positions. -/
theorem C3_index_lockstep (num N lid : Nat) (map : Nat → Nat)
    (st st' : PhreeqcState ℚ) (lines : List String)
    (script : List ScriptItem)
    (hw : writeSystem num map st lid = some script)
    (hr : readOutputs map N lines st = .ok st') :
    (∀ k ∈ blockKeys script, k = map lid + 1) ∧
    (∀ i, (∀ k, k < N → map k ≠ i) → arraysAt st' i = arraysAt st i) := by
  refine ⟨writeSystem_keys hw, fun i hi => ?_⟩
  exact readOutputsLoop_frame map (numSkippedLines st) N 0 (lines.drop 1)
    st st' hr i (fun k hk0 hkN => hi k (by omega))

theorem C3_witness :
    (∀ k ∈ blockKeys
        [ScriptItem.solution 2, .solutionBody, .useSolutionNone, .endBlock,
         .useSolution 2, .equilibriumPhases 2, .phaseBody "Calcite",
         .endBlock], k = 1 - 0 + 1) ∧
    (∀ i, (∀ k, k < 2 → 1 - k ≠ i) →
      arraysAt (PhreeqcState.mk (α := ℚ) [] [⟨"Calcite", [5/2, 3/2]⟩] [] []
          none ⟨[⟨"Calcite", .EquilibriumPhase⟩], []⟩ none) i =
        arraysAt (PhreeqcState.mk (α := ℚ) [] [⟨"Calcite", [0, 0]⟩] [] []
          none ⟨[⟨"Calcite", .EquilibriumPhase⟩], []⟩ none) i) := by
  exact C3_index_lockstep 2 2 0 (fun k => 1 - k)
    (PhreeqcState.mk (α := ℚ) [] [⟨"Calcite", [0, 0]⟩] [] [] none
      ⟨[⟨"Calcite", .EquilibriumPhase⟩], []⟩ none)
    (PhreeqcState.mk (α := ℚ) [] [⟨"Calcite", [5/2, 3/2]⟩] [] [] none
      ⟨[⟨"Calcite", .EquilibriumPhase⟩], []⟩ none)
    ["h", "s", "1.5", "s", "2.5"]
    [ScriptItem.solution 2, .solutionBody, .useSolutionNone, .endBlock,
     .useSolution 2, .equilibriumPhases 2, .phaseBody "Calcite", .endBlock]
    (by decide)
    (by
      simp [readOutputs, readOutputsLoop, numSkippedLines, readSystem,
        processItems, parseItemsGo, tokenize, splitCompress, isSepChar,
        routeItems, routeOne, updateFirst, stod, stodSignSplit, stodFracSplit,
        stodExponent, stodExponentAfterE, stodExponentDigits, digitsToNat]
      norm_num)

/-! ## The pH / hydrogen-concentration interconversion -/

/-- The `SettingAqueousSolutions` phase for the hydrogen-bound transport
quantity stores `pH = -log10(get(global_id))` and performs no vector
write. -/
lemma processEntry_setting_H (sol : AqueousSolution ℝ) (vec : Nat → ℝ)
    (g : Nat) :
    (processEntry .SettingAqueousSolutions g "H" sol vec).1.pH =
        -Real.logb 10 (vec g) ∧
      (processEntry .SettingAqueousSolutions g "H" sol vec).2.1 = vec := by
  unfold processEntry
  cases findFirst (fun c => c.name == "H") sol.components <;>
    simp [hydrogenStep]

/-- The `UpdatingProcessSolutions` phase for the hydrogen-bound transport
quantity leaves `10^-pH` as the final value at `global_id`, whatever the
component branch wrote before. -/
lemma processEntry_updating_H_vec (sol : AqueousSolution ℝ) (vec : Nat → ℝ)
    (g : Nat) :
    (processEntry .UpdatingProcessSolutions g "H" sol vec).2.1 g =
      (10 : ℝ) ^ (-sol.pH) := by
  unfold processEntry
  cases findFirst (fun c => c.name == "H") sol.components <;>
    simp [hydrogenStep, setVec]

/-- Claim C4: for a positive transport-vector value `c = vec g` bound to
the hydrogen role, running `SettingAqueousSolutions` (which stores
`pH = -log10 c`) immediately followed by `UpdatingProcessSolutions`
(which writes back `10^-pH`), with no engine run in between, reproduces
`c` exactly in the real-number model of the doubles. -/
theorem C4_hydrogen_round_trip (sol : AqueousSolution ℝ) (vec : Nat → ℝ)
    (g : Nat) (hc : 0 < vec g) :
    (processEntry .UpdatingProcessSolutions g "H"
        (processEntry .SettingAqueousSolutions g "H" sol vec).1
        (processEntry .SettingAqueousSolutions g "H" sol vec).2.1).2.1 g =
      vec g := by
  rw [processEntry_updating_H_vec, (processEntry_setting_H sol vec g).1,
    neg_neg]
  exact Real.rpow_logb (by norm_num) (by norm_num) hc

theorem C4_witness :
    (processEntry .UpdatingProcessSolutions 0 "H"
        (processEntry .SettingAqueousSolutions 0 "H"
          (AqueousSolution.mk 7 4 []) fun _ => (1 : ℝ)).1
        (processEntry .SettingAqueousSolutions 0 "H"
          (AqueousSolution.mk 7 4 []) fun _ => (1 : ℝ)).2.1).2.1 0 =
      (fun _ => (1 : ℝ)) 0 :=
  C4_hydrogen_round_trip ⟨7, 4, []⟩ (fun _ => (1 : ℝ)) 0 (by norm_num)

/-- Claim C10: in the `UpdatingProcessSolutions` phase, when the
transport quantity is named "H" and the solution holds a component named
"H", the transport vector entry at `global_id` is written twice in
order — first the component's stored amount, then `10^-pH` — so the value
observed after the phase is `10^-pH` regardless of the component
amount. -/
theorem C10_H_update_writes_twice (sol : AqueousSolution ℝ) (vec : Nat → ℝ)
    (g : Nat) (c : Component ℝ)
    (hfind : findFirst (fun x => x.name == "H") sol.components = some c) :
    (processEntry .UpdatingProcessSolutions g "H" sol vec).2.2 =
        [(g, c.amount), (g, (10 : ℝ) ^ (-sol.pH))] ∧
      (processEntry .UpdatingProcessSolutions g "H" sol vec).2.1 g =
        (10 : ℝ) ^ (-sol.pH) := by
  unfold processEntry
  rw [hfind]
  constructor
  · simp [hydrogenStep]
  · simp [hydrogenStep, setVec]

theorem C10_witness :
    (processEntry .UpdatingProcessSolutions 1 "H"
        (AqueousSolution.mk 3 4 [Component.mk "H" 2]) fun _ => (0 : ℝ)).2.2 =
        [(1, ((2 : ℝ))), (1, (10 : ℝ) ^ (-(3 : ℝ)))] ∧
      (processEntry .UpdatingProcessSolutions 1 "H"
        (AqueousSolution.mk 3 4 [Component.mk "H" 2]) fun _ => (0 : ℝ)).2.1 1 =
        (10 : ℝ) ^ (-(3 : ℝ)) := by
  exact C10_H_update_writes_twice ⟨3, 4, [⟨"H", 2⟩]⟩ (fun _ => (0 : ℝ)) 1
    ⟨"H", 2⟩ (by simp [findFirst])

end PhreeqcIOData
